import Mathlib

/-!
Verification development for totp_gen.py, a small CLI utility that generates
TOTP tokens for caller-specified moments.

The Python source is embedded shallowly:

* machine integers and byte values are `Nat`/`Int` with explicit `% 2 ^ w`
  where wrap-around matters (SHA-1 words);
* Python exceptions are an explicit `PyErr` type; fallible code returns
  `Except PyErr`;
* the ambient state read by the program (the `TOTP_SECRET` environment
  variable, the current instant for `datetime.now`, and the machine's local
  timezone used by `datetime.fromtimestamp` / `time.mktime`) is passed as
  explicit parameters (`env`, `now`, `localOff`).  The machine's local clock
  is modelled as a fixed UTC offset `localOff` in seconds, under which
  `time.mktime` is the exact inverse of `datetime.fromtimestamp`;
* strings are modelled over their ASCII fragment: `str.strip`, `str.upper`
  and the `re`/`strptime` digit classes are embedded for ASCII characters,
  which covers every string the grammar of the program can accept;
* `print` calls are modelled as emitted `Line` values carrying the data that
  is interpolated; rendering a `Line` to the exact printed text is the
  separate function `renderLine`.
-/

/-- Python exceptions raised by the program (directly or by the libraries it
calls).  All constructors except `overflowError` model exceptions that are
(subclasses of) `ValueError`, which `main` catches; `overflowError` models
the `OverflowError` from `date.__add__`, which `main` does not catch. -/
inductive PyErr where
  | invalidTzFormat (tz_str : String)
  | tzOffsetOutOfRange
  | missingSecret
  | invalidTime
  | invalidDate
  | invalidSecret (msg : String)
  | negativeInput
  | yearOutOfRange
  | overflowError
deriving DecidableEq, Repr

/-- Whether the exception is a `ValueError` (and hence caught by the
`except ValueError` clause of `main`).  `binascii.Error` (`invalidSecret`)
is a subclass of `ValueError`; `OverflowError` is not. -/
def PyErr.isValueError : PyErr → Bool
  | .overflowError => false
  | _ => true

/-- The human-readable message of each exception, as interpolated by
`print(f'Error: ...')`.  Messages raised by the script itself are verbatim;
messages originating inside the standard library are abbreviated. -/
def PyErr.message : PyErr → String
  | .invalidTzFormat s => "Invalid timezone format: " ++ s ++ ". Use formats like UTC, UTC+3, UTC-2"
  | .tzOffsetOutOfRange => "offset must be a timedelta strictly between -timedelta(hours=24) and timedelta(hours=24)."
  | .missingSecret => "No secret provided. Use --secret or set the TOTP_SECRET environment variable."
  | .invalidTime => "time data does not match format %H:%M"
  | .invalidDate => "time data does not match format %Y-%m-%d"
  | .invalidSecret m => m
  | .negativeInput => "input must be positive integer"
  | .yearOutOfRange => "year is out of range"
  | .overflowError => "result out of range"

/-- Characters removed by Python's `str.strip()` (ASCII fragment:
space, tab, newline, carriage return, vertical tab, form feed). -/
def isPySpace (c : Char) : Bool :=
  c == ' ' || c == '\t' || c == '\n' || c == '\r' || c.toNat == 11 || c.toNat == 12

/-- Embedding of `str.strip()`: drop surrounding whitespace. -/
def stripPy (cs : List Char) : List Char :=
  ((cs.dropWhile isPySpace).reverse.dropWhile isPySpace).reverse

/-- Value of an ASCII decimal digit, the character class `\d` of the regexes
used by the program (`none` when the character is not a digit). -/
def digitVal (c : Char) : Option Nat :=
  if 48 ≤ c.toNat ∧ c.toNat ≤ 57 then some (c.toNat - 48) else none

/-- Reading of the optional group `(\d{1,2})` of the timezone regex:
one or two digits. -/
def readTzDigits : List Char → Option Nat
  | [d] => digitVal d
  | [d1, d2] => do
    let a ← digitVal d1
    let b ← digitVal d2
    pure (10 * a + b)
  | _ => none

/-- Matching of the part of `UTC([+-]?)(\d{1,2})?` after the literal `UTC`:
returns the sign (`true` = negative) and the hour magnitude.  An absent sign
is `+` (`match.group(1) or '+'`); absent digits are `0`
(`int(match.group(2) or 0)`). -/
def tzTail : List Char → Option (Bool × Nat)
  | [] => some (false, 0)
  | '+' :: rest => if rest.isEmpty then some (false, 0) else (readTzDigits rest).map (fun h => (false, h))
  | '-' :: rest => if rest.isEmpty then some (true, 0) else (readTzDigits rest).map (fun h => (true, h))
  | cs => (readTzDigits cs).map (fun h => (false, h))

/-- Full match of the regex `UTC([+-]?)(\d{1,2})?` (`re.fullmatch`). -/
def tzMatch : List Char → Option (Bool × Nat)
  | 'U' :: 'T' :: 'C' :: rest => tzTail rest
  | _ => none

/-- Embedding of `parse_timezone` (totp_gen.py lines 17-25).  The input is
stripped and upper-cased, matched against `UTC([+-]?)(\d{1,2})?`, and the
resulting `timedelta(hours=...)` is turned into a `datetime.timezone`, whose
constructor raises `ValueError` unless the offset is strictly between
-24 and +24 hours.  The result is the UTC offset in seconds. -/
def parse_timezone (tz_str : String) : Except PyErr Int :=
  match tzMatch ((stripPy tz_str.toList).map Char.toUpper) with
  | none => .error (.invalidTzFormat tz_str)
  | some (neg, h) =>
    if 24 ≤ h then .error .tzOffsetOutOfRange
    else .ok (if neg then -(3600 * (h : Int)) else 3600 * (h : Int))

/-- Python truthiness of an optional string: `None` and `''` are falsy. -/
def isTruthyStr : Option String → Bool
  | none => false
  | some s => !(s == "")

/-- Embedding of `get_secret` (totp_gen.py lines 27-31):
`secret = cli_secret or os.getenv("TOTP_SECRET")`, error when the result is
still falsy.  `env` is the value of the `TOTP_SECRET` environment variable
(`none` when unset). -/
def get_secret (cli_secret : Option String) (env : Option String) : Except PyErr String :=
  let secret := if isTruthyStr cli_secret then cli_secret else env
  match secret with
  | some s => if s == "" then .error .missingSecret else .ok s
  | none => .error .missingSecret

/-- Embedding of `datetime.strptime(start_time, '%H:%M').time()`:
the `_strptime` regex is `(2[0-3]|[0-1]\d|\d):([0-5]\d|\d)`, anchored on both
sides.  A two-digit hour is accepted exactly when its value is at most 23 and
a two-digit minute exactly when its value is at most 59; one-digit fields are
unrestricted digits.  Returns `(hour, minute)`. -/
def parse_time (s : String) : Option (Nat × Nat) :=
  match s.toList with
  | [h1, ':', m1] => do
    let a ← digitVal h1
    let b ← digitVal m1
    pure (a, b)
  | [h1, ':', m1, m2] => do
    let a ← digitVal h1
    let b1 ← digitVal m1
    let b2 ← digitVal m2
    if 10 * b1 + b2 ≤ 59 then pure (a, 10 * b1 + b2) else none
  | [h1, h2, ':', m1] => do
    let a1 ← digitVal h1
    let a2 ← digitVal h2
    let b ← digitVal m1
    if 10 * a1 + a2 ≤ 23 then pure (10 * a1 + a2, b) else none
  | [h1, h2, ':', m1, m2] => do
    let a1 ← digitVal h1
    let a2 ← digitVal h2
    let b1 ← digitVal m1
    let b2 ← digitVal m2
    if 10 * a1 + a2 ≤ 23 ∧ 10 * b1 + b2 ≤ 59 then pure (10 * a1 + a2, 10 * b1 + b2) else none
  | _ => none

/-- Whether a year is a Gregorian leap year (`calendar`/`datetime` rule). -/
def leap (y : Int) : Bool :=
  y % 4 == 0 && (y % 100 != 0 || y % 400 == 0)

/-- Number of days in a month (`datetime._days_in_month`). -/
def daysInMonth (y m : Int) : Int :=
  if m = 2 then (if leap y then 29 else 28)
  else if m = 4 ∨ m = 6 ∨ m = 9 ∨ m = 11 then 30
  else 31

/-- Number of days in the year before the first of month `m`
(`datetime._days_before_month`). -/
def daysBeforeMonth (y m : Int) : Int :=
  (List.range (m.toNat - 1)).foldl (fun acc i => acc + daysInMonth y ((i : Int) + 1)) 0

/-- Proleptic-Gregorian ordinal of a date (`datetime._ymd2ord`): day 1 is
0001-01-01.  1970-01-01 has ordinal 719163. -/
def ymd2ord (y m d : Int) : Int :=
  365 * (y - 1) + (y - 1) / 4 - (y - 1) / 100 + (y - 1) / 400 + daysBeforeMonth y m + d

/-- Embedding of `datetime.strptime(date_str, '%Y-%m-%d').date()`: the
`_strptime` regex is `(\d\d\d\d)-(1[0-2]|0[1-9]|[1-9])-(3[01]|[12]\d|0[1-9]|[1-9])`,
anchored on both sides, followed by the `date` constructor's validation
(year at least 1, day at most `daysInMonth`).  The two-digit month pattern is
exactly the values 1..12 and the two-digit day pattern exactly 1..31, so both
are folded into `mkDate`'s checks. -/
def mkDate (y m d : Nat) : Option (Int × Int × Int) :=
  if 1 ≤ y ∧ 1 ≤ m ∧ m ≤ 12 ∧ 1 ≤ d ∧ (d : Int) ≤ daysInMonth y m then
    some ((y : Int), (m : Int), (d : Int))
  else none

/-- Date-string parser (see `mkDate` for the grammar). -/
def parse_date (s : String) : Option (Int × Int × Int) :=
  match s.toList with
  | [y1, y2, y3, y4, '-', a, '-', b] => do
    let v1 ← digitVal y1
    let v2 ← digitVal y2
    let v3 ← digitVal y3
    let v4 ← digitVal y4
    let mo ← digitVal a
    let dd ← digitVal b
    mkDate (1000 * v1 + 100 * v2 + 10 * v3 + v4) mo dd
  | [y1, y2, y3, y4, '-', a, '-', b, c] => do
    let v1 ← digitVal y1
    let v2 ← digitVal y2
    let v3 ← digitVal y3
    let v4 ← digitVal y4
    let mo ← digitVal a
    let d1 ← digitVal b
    let d2 ← digitVal c
    mkDate (1000 * v1 + 100 * v2 + 10 * v3 + v4) mo (10 * d1 + d2)
  | [y1, y2, y3, y4, '-', a, b, '-', c] => do
    let v1 ← digitVal y1
    let v2 ← digitVal y2
    let v3 ← digitVal y3
    let v4 ← digitVal y4
    let m1 ← digitVal a
    let m2 ← digitVal b
    let dd ← digitVal c
    mkDate (1000 * v1 + 100 * v2 + 10 * v3 + v4) (10 * m1 + m2) dd
  | [y1, y2, y3, y4, '-', a, b, '-', c, d] => do
    let v1 ← digitVal y1
    let v2 ← digitVal y2
    let v3 ← digitVal y3
    let v4 ← digitVal y4
    let m1 ← digitVal a
    let m2 ← digitVal b
    let d1 ← digitVal c
    let d2 ← digitVal d
    mkDate (1000 * v1 + 100 * v2 + 10 * v3 + v4) (10 * m1 + m2) (10 * d1 + d2)
  | _ => none

/-- Ordinal of 1970-01-01, the epoch of `datetime.timestamp`. -/
def epochOrd : Int := 719163

/-- Last representable ordinal, `date.max.toordinal()` (9999-12-31). -/
def maxOrd : Int := 3652059

/-- Epoch seconds of the wall-clock moment (ordinal date, `h:mi`) in a fixed
timezone of `tz` seconds: `int(datetime.combine(d, t).replace(tzinfo=tz).timestamp())`. -/
def mkTimestamp (ordinal : Int) (h mi : Nat) (tz : Int) : Int :=
  86400 * (ordinal - epochOrd) + 3600 * (h : Int) + 60 * (mi : Int) - tz

/-- The list comprehension `[today + timedelta(days=i) for i in range(days)]`:
each `date.__add__` raises `OverflowError` when the resulting ordinal leaves
`1..maxOrd`.  Evaluated left to right; the first failure wins. -/
def datesRange (today : Int) : List Nat → Except PyErr (List Int)
  | [] => .ok []
  | i :: is =>
    if 1 ≤ today + (i : Int) ∧ today + (i : Int) ≤ maxOrd then
      match datesRange today is with
      | .error e => .error e
      | .ok rest => .ok ((today + (i : Int)) :: rest)
    else .error .overflowError

/-- The no-explicit-date branch of `get_timestamps`: today is the calendar
date of the current instant `now` observed under the offset `tz`, and the
dates are `today, today+1, ..., today+days-1` (empty for `days ≤ 0`, matching
`range(days)`). -/
def get_timestamps_range (h mi : Nat) (tz days now : Int) : Except PyErr (List Int) :=
  let today : Int := (now + tz) / 86400 + epochOrd
  match datesRange today (List.range days.toNat) with
  | .error e => .error e
  | .ok ords => .ok (ords.map (fun o => mkTimestamp o h mi tz))

/-- Embedding of `get_timestamps` (totp_gen.py lines 33-48).  `tz` is the UTC
offset in seconds, `now` the current epoch instant (read by `datetime.now`
only on the no-date branch).  `if date_str:` is Python truthiness, so both
`None` and the empty string select the date-range branch. -/
def get_timestamps (start_time : String) (tz : Int) (date_str : Option String) (days : Int) (now : Int) : Except PyErr (List Int) :=
  match parse_time start_time with
  | none => .error .invalidTime
  | some (h, mi) =>
    match date_str with
    | some ds =>
      if ds == "" then get_timestamps_range h mi tz days now
      else
        match parse_date ds with
        | none => .error .invalidDate
        | some (y, mo, dd) => .ok [mkTimestamp (ymd2ord y mo dd) h mi tz]
    | none => get_timestamps_range h mi tz days now

/-! SHA-1 (as in `hashlib.sha1`), HMAC (`hmac.new`), Base32 decoding
(`base64.b32decode`) and the TOTP derivation of `pyotp`, over lists of byte
values (`Nat` below 256) with 32-bit words as `Nat` reduced modulo `2 ^ 32`. -/

/-- Reduction to a 32-bit word. -/
def u32 (n : Nat) : Nat := n % 4294967296

/-- Left rotation of a 32-bit word. -/
def rotl (s x : Nat) : Nat := u32 ((x <<< s) ||| (x >>> (32 - s)))

/-- 32-bit complement. -/
def notW (x : Nat) : Nat := 4294967295 ^^^ x

/-- Big-endian serialization of `n` into `len` bytes. -/
def toBytesBE (len n : Nat) : List Nat :=
  (List.range len).map (fun i => (n >>> (8 * (len - 1 - i))) % 256)

/-- Big-endian 32-bit words from a byte list (length a multiple of 4). -/
def bytesToWords : List Nat → List Nat
  | b0 :: b1 :: b2 :: b3 :: rest => (((b0 * 256 + b1) * 256 + b2) * 256 + b3) :: bytesToWords rest
  | _ => []

/-- Grouping of a word list into 16-word blocks (`fuel` at least the length). -/
def chunk16 : Nat → List Nat → List (List Nat)
  | 0, _ => []
  | _, [] => []
  | f + 1, ws => ws.take 16 :: chunk16 f (ws.drop 16)

/-- Extension of the (reversed) message schedule by `steps` further words:
`W[t] = rotl 1 (W[t-3] xor W[t-8] xor W[t-14] xor W[t-16])`. -/
def extendW (steps : Nat) (rws : List Nat) : List Nat :=
  match steps with
  | 0 => rws
  | n + 1 => extendW n (rotl 1 (rws.getD 2 0 ^^^ rws.getD 7 0 ^^^ rws.getD 13 0 ^^^ rws.getD 15 0) :: rws)

/-- SHA-1 round function for round `t`. -/
def sha1F (t b c d : Nat) : Nat :=
  if t < 20 then (b &&& c) ||| (notW b &&& d)
  else if t < 40 then b ^^^ c ^^^ d
  else if t < 60 then (b &&& c) ||| (b &&& d) ||| (c &&& d)
  else b ^^^ c ^^^ d

/-- SHA-1 round constant for round `t`. -/
def sha1K (t : Nat) : Nat :=
  if t < 20 then 1518500249
  else if t < 40 then 1859775393
  else if t < 60 then 2400959708
  else 3395469782

/-- One SHA-1 round: state update from `(t, W[t])`. -/
def sha1Round (st : Nat × Nat × Nat × Nat × Nat) (tw : Nat × Nat) : Nat × Nat × Nat × Nat × Nat :=
  match st, tw with
  | (a, b, c, d, e), (t, w) =>
    (u32 (rotl 5 a + sha1F t b c d + e + sha1K t + w), a, rotl 30 b, c, d)

/-- SHA-1 compression of one 16-word block into the running state. -/
def sha1Block (st : Nat × Nat × Nat × Nat × Nat) (ws : List Nat) : Nat × Nat × Nat × Nat × Nat :=
  let w80 := (extendW 64 ws.reverse).reverse
  match st, ((List.range 80).zip w80).foldl sha1Round st with
  | (h0, h1, h2, h3, h4), (a, b, c, d, e) =>
    (u32 (h0 + a), u32 (h1 + b), u32 (h2 + c), u32 (h3 + d), u32 (h4 + e))

/-- SHA-1 digest (20 bytes) of a byte list. -/
def sha1 (msg : List Nat) : List Nat :=
  let l := msg.length
  let padded := msg ++ 128 :: List.replicate ((119 - l % 64) % 64) 0 ++ toBytesBE 8 (8 * l)
  let ws := bytesToWords padded
  match (chunk16 ws.length ws).foldl sha1Block (1732584193, 4023233417, 2562383102, 271733878, 3285377520) with
  | (a, b, c, d, e) => toBytesBE 4 a ++ toBytesBE 4 b ++ toBytesBE 4 c ++ toBytesBE 4 d ++ toBytesBE 4 e

/-- HMAC-SHA1 (`hmac.new(key, msg, hashlib.sha1).digest()`): block size 64,
long keys are hashed first. -/
def hmacSha1 (key msg : List Nat) : List Nat :=
  let k0 := if 64 < key.length then sha1 key else key
  let kp := k0 ++ List.replicate (64 - k0.length) 0
  sha1 ((kp.map (fun b => b ^^^ 92)) ++ sha1 ((kp.map (fun b => b ^^^ 54)) ++ msg))

/-- Base32 value of a character, the reverse alphabet of `base64._b32decode`
(`A`-`Z` are 0..25, `2`-`7` are 26..31). -/
def b32val (c : Char) : Option Nat :=
  if 65 ≤ c.toNat ∧ c.toNat ≤ 90 then some (c.toNat - 65)
  else if 50 ≤ c.toNat ∧ c.toNat ≤ 55 then some (c.toNat - 50 + 26) else none

/-- Accumulator of one (possibly short) 8-character quantum:
`acc = (acc << 5) + b32rev[c]` over the characters. -/
def b32quanta (cs : List Char) : Option Nat :=
  cs.foldl (fun acc c => do
    let a ← acc
    let v ← b32val c
    pure (32 * a + v)) (some 0)

/-- Decoding loop of `base64._b32decode`: 8-character quanta each contribute
5 big-endian bytes; returns the bytes and the accumulator of the last
quantum.  `fuel` is at least the number of quanta. -/
def b32core : Nat → List Char → Nat → Option (List Nat × Nat)
  | _, [], accPrev => some ([], accPrev)
  | 0, _, _ => none
  | f + 1, cs, _ =>
    match b32quanta (cs.take 8) with
    | none => none
    | some acc =>
      match b32core f (cs.drop 8) acc with
      | none => none
      | some (rest, accLast) => some (toBytesBE 5 acc ++ rest, accLast)

/-- Removal of trailing padding characters (`bytes.rstrip(b'=')`). -/
def rstripEq (cs : List Char) : List Char :=
  (cs.reverse.dropWhile (fun c => c == '=')).reverse

/-- Embedding of `base64.b32decode(s, casefold=True)` (CPython `_b32decode`):
length must be a multiple of 8; the input is upper-cased; trailing `=` are
stripped and counted; quanta are decoded (a non-alphabet character raises
`binascii.Error('Non-base32 digit found')`); the padding count must be one of
0, 1, 3, 4, 6, and the final partial quantum overwrites the last 5 bytes. -/
def b32decode (cs : List Char) : Except PyErr (List Nat) :=
  if cs.length % 8 ≠ 0 then .error (.invalidSecret "Incorrect padding")
  else
    let su := cs.map Char.toUpper
    let stripped := rstripEq su
    let padchars := su.length - stripped.length
    match b32core stripped.length stripped 0 with
    | none => .error (.invalidSecret "Non-base32 digit found")
    | some (decoded, acc) =>
      if padchars = 0 ∨ padchars = 1 ∨ padchars = 3 ∨ padchars = 4 ∨ padchars = 6 then
        if padchars ≠ 0 ∧ decoded ≠ [] then
          .ok (decoded.take (decoded.length - 5) ++ (toBytesBE 5 (acc <<< (5 * padchars))).take ((43 - 5 * padchars) / 8))
        else .ok decoded
      else .error (.invalidSecret "Incorrect padding")

/-- Embedding of `pyotp.OTP.byte_secret`: the secret is padded with `=` to a
multiple of 8 characters and Base32-decoded with `casefold=True`. -/
def byte_secret (s : String) : Except PyErr (List Nat) :=
  let missing := s.length % 8
  b32decode (if missing ≠ 0 then s.toList ++ List.replicate (8 - missing) '=' else s.toList)

/-- Embedding of `pyotp.OTP.generate_otp` after the non-negativity check:
HMAC-SHA1 of the 8-byte big-endian counter, dynamic truncation, the low 6
decimal digits with leading zeros
(`str(10_000_000_000 + (code % 10 ** 6))[-6:]`). -/
def hotpValue (key : List Nat) (counter : Nat) : String :=
  let mac := hmacSha1 key (toBytesBE 8 counter)
  let offset := mac.getD 19 0 &&& 15
  let code := ((mac.getD offset 0 &&& 127) <<< 24) ||| ((mac.getD (offset + 1) 0 &&& 255) <<< 16) |||
    ((mac.getD (offset + 2) 0 &&& 255) <<< 8) ||| (mac.getD (offset + 3) 0 &&& 255)
  (toString (10000000000 + code % 1000000)).takeRight 6

/-- Range check of `datetime.fromtimestamp(ts)` on a machine whose local
clock is the fixed offset `localOff`: the naive local datetime exists exactly
when the local reading lies within years 1..9999, i.e. local seconds from
-62135596800 (0001-01-01 00:00:00, ordinal 1) through 253402300799
(9999-12-31 23:59:59, ordinal 3652059); outside it the constructor raises
`ValueError` (e.g. `year 10000 is out of range`). -/
def fromtimestampOk (localOff ts : Int) : Bool :=
  decide (-62135596800 ≤ ts + localOff ∧ ts + localOff ≤ 253402300799)

/-- Embedding of `pyotp.TOTP(secret).at(for_time)` for an integer instant:
`at` first evaluates `datetime.fromtimestamp(int(for_time))`, which raises
`ValueError` when the machine-local reading leaves years 1..9999; then the
timecode is `int(for_time / 30)` (float division truncated towards zero; the
`fromtimestamp`/`mktime` round trip is the identity under the fixed-offset
local-clock model); `generate_otp` raises `ValueError` on a negative input
before decoding the secret. -/
def totp_at (secret : String) (for_time : Int) (localOff : Int) : Except PyErr String :=
  if fromtimestampOk localOff for_time then
    let input := Int.tdiv for_time 30
    if input < 0 then .error .negativeInput
    else
      match byte_secret secret with
      | .error e => .error e
      | .ok key => .ok (hotpValue key input.toNat)
  else .error .yearOutOfRange

/-! Output model: each `print` of the program is a `Line` carrying the
interpolated data; `renderLine` produces the exact printed text. -/

/-- One printed line: the per-block banner
`'\nTokens starting at {datetime.fromtimestamp(ts)}:'`, a token line
`'  {readable_time} -> {otp}'`, or the top-level `'Error: {e}'`. -/
inductive Line where
  | header (ts : Int)
  | tokenLine (target : Int) (otp : String)
  | errorLine (e : PyErr)
deriving DecidableEq, Repr

/-- Whether a line is a token line. -/
def isTokenLine : Line → Bool
  | .tokenLine _ _ => true
  | _ => false

/-- Whether a line is an error line. -/
def isErrorLine : Line → Bool
  | .errorLine _ => true
  | _ => false

/-- Number of token lines in an output. -/
def countTok (ls : List Line) : Nat := (ls.filter isTokenLine).length

/-- Number of error lines in an output. -/
def countErr (ls : List Line) : Nat := (ls.filter isErrorLine).length

/-- The inner loop `for i in range(count)` of `generate_totps`, already `i`
steps in with `n` iterations left: each iteration computes
`target_ts = ts + i * 30` and `totp.at(target_ts)` and prints the token line;
an exception stops the loop, carrying the lines printed so far. -/
def genTokensAux (secret : String) (ts : Int) (i : Nat) (localOff : Int) : Nat → List Line × Option PyErr
  | 0 => ([], none)
  | n + 1 =>
    match totp_at secret (ts + 30 * i) localOff with
    | .error e => ([], some e)
    | .ok otp =>
      match genTokensAux secret ts (i + 1) localOff n with
      | (ls, e) => (Line.tokenLine (ts + 30 * i) otp :: ls, e)

/-- Embedding of `generate_totps` (totp_gen.py lines 50-58): for each base
timestamp a banner line, then `count` token lines; printing is incremental,
so an exception leaves the lines already printed and aborts the rest.  The
banner f-string itself evaluates `datetime.fromtimestamp(ts)`, which raises
before anything of the block is printed when the instant is outside the
machine-local printable range. -/
def generate_totps (secret : String) (base_timestamps : List Int) (count : Int) (localOff : Int) : List Line × Option PyErr :=
  match base_timestamps with
  | [] => ([], none)
  | ts :: rest =>
    if fromtimestampOk localOff ts then
      match genTokensAux secret ts 0 localOff count.toNat with
      | (ls, some e) => (Line.header ts :: ls, some e)
      | (ls, none) =>
        match generate_totps secret rest count localOff with
        | (ls2, e2) => (Line.header ts :: ls ++ ls2, e2)
    else ([], some .yearOutOfRange)

/-- The parsed command-line arguments of the program (`argparse` defaults:
`count = 3`, `days = 3`, `tz = "UTC-3"`, `date` and `secret` unset). -/
structure Args where
  time : String
  count : Int
  date : Option String
  days : Int
  secret : Option String
  tz : String
deriving DecidableEq, Repr

namespace totp_gen

/-- Embedding of `main` (totp_gen.py lines 60-68).  `env` is the
`TOTP_SECRET` environment variable, `now` the current instant, and
`localOff` the machine's local clock offset (consulted by every
`datetime.fromtimestamp`).  The printed lines are returned together with the
uncaught exception, if any: `except ValueError` turns every `ValueError`
into a final error line, while an `OverflowError` escapes (second component
`some e`). -/
def main (args : Args) (env : Option String) (now : Int) (localOff : Int) : List Line × Option PyErr :=
  match parse_timezone args.tz with
  | .error e => ([Line.errorLine e], none)
  | .ok tz =>
    match get_secret args.secret env with
    | .error e => ([Line.errorLine e], none)
    | .ok secret =>
      match get_timestamps args.time tz args.date args.days now with
      | .error e => if e.isValueError then ([Line.errorLine e], none) else ([], some e)
      | .ok timestamps =>
        match generate_totps secret timestamps args.count localOff with
        | (lines, some e) => if e.isValueError then (lines ++ [Line.errorLine e], none) else (lines, some e)
        | (lines, none) => (lines, none)

end totp_gen

/-! Rendering of the printed lines.  `datetime.fromtimestamp(ts)` converts an
epoch instant to the machine's local wall-clock time; the local clock is
modelled as the fixed offset `localOff` seconds from UTC. -/

/-- Civil date from a count of days since 1970-01-01 (the inverse of
`ymd2ord` shifted to the epoch, as computed by `datetime._ord2ymd`). -/
def civilFromDays (z0 : Int) : Int × Int × Int :=
  let z := z0 + 719468
  let era := z / 146097
  let doe := (z - era * 146097).toNat
  let yoe := (doe - doe / 1460 + doe / 36524 - doe / 146096) / 365
  let doy := doe - (365 * yoe + yoe / 4 - yoe / 100)
  let mp := (5 * doy + 2) / 153
  let d := doy - (153 * mp + 2) / 5 + 1
  let m : Int := if mp < 10 then (mp : Int) + 3 else (mp : Int) - 9
  (era * 400 + (yoe : Int) + (if m ≤ 2 then 1 else 0), m, (d : Int))

/-- Zero-padded two-digit decimal. -/
def pad2 (n : Nat) : String := if n < 10 then "0" ++ toString n else toString n

/-- Zero-padded four-digit decimal. -/
def pad4 (n : Nat) : String :=
  if n < 10 then "000" ++ toString n
  else if n < 100 then "00" ++ toString n
  else if n < 1000 then "0" ++ toString n
  else toString n

/-- The text `str(datetime.fromtimestamp(ts))` (equally
`datetime.fromtimestamp(ts).strftime('%Y-%m-%d %H:%M:%S')`, the two agree on
whole seconds): local wall-clock time of `ts` under the machine offset
`localOff`. -/
def fmtInstant (localOff ts : Int) : String :=
  let loc := ts + localOff
  let days := loc / 86400
  let sod := (loc % 86400).toNat
  match civilFromDays days with
  | (y, m, d) =>
    pad4 y.toNat ++ "-" ++ pad2 m.toNat ++ "-" ++ pad2 d.toNat ++ " " ++
      pad2 (sod / 3600) ++ ":" ++ pad2 (sod % 3600 / 60) ++ ":" ++ pad2 (sod % 60)

/-- Exact printed text of a line on a machine whose local clock is the fixed
offset `localOff`. -/
def renderLine (localOff : Int) : Line → String
  | .header ts => "\nTokens starting at " ++ fmtInstant localOff ts ++ ":"
  | .tokenLine target otp => "  " ++ fmtInstant localOff target ++ " -> " ++ otp
  | .errorLine e => "Error: " ++ e.message

/-- Rendering of a whole output. -/
def renderOutput (localOff : Int) (ls : List Line) : List String :=
  ls.map (renderLine localOff)


/-- Derived closed form of the single-token computation of `totp_at` on a
successfully decoded secret `k`: the token printed for the instant `target`. -/
def tokenAt (k : List Nat) (target : Int) : String :=
  hotpValue k (Int.toNat (Int.tdiv target 30))

/-- Derived closed form of one output block of `generate_totps` for the base
instant `ts`: the banner line followed by `count` token lines at 30-second
steps. -/
def tokenBlock (k : List Nat) (count : Int) (ts : Int) : List Line :=
  Line.header ts :: (List.range count.toNat).map (fun i : Nat => Line.tokenLine (ts + 30 * (i : Int)) (tokenAt k (ts + 30 * (i : Int))))

/-- Derived closed form of the date-range branch of `get_timestamps`:
one timestamp per calendar day, starting at the current date under `tz`. -/
def rangeTimestamps (h mi : Nat) (tz days now : Int) : List Int :=
  (List.range days.toNat).map (fun i : Nat => mkTimestamp ((now + tz) / 86400 + epochOrd + (i : Int)) h mi tz)

deriving instance DecidableEq for Except

/-! Supporting lemmas. -/

theorem digitVal_le {c : Char} {a : Nat} (h : digitVal c = some a) : a ≤ 9 := by
  unfold digitVal at h
  split at h
  · next hc => injection h with h2; omega
  · exact Option.noConfusion h

theorem parse_time_bounds {s : String} {h mi : Nat} (hp : parse_time s = some (h, mi)) :
    h ≤ 23 ∧ mi ≤ 59 := by
  unfold parse_time at hp
  split at hp
  · rename_i h1 m1 heq
    rcases hda : digitVal h1 with _ | a <;> simp [hda] at hp
    rcases hdb : digitVal m1 with _ | b <;> simp [hdb] at hp
    have := digitVal_le hda
    have := digitVal_le hdb
    omega
  · rename_i h1 m1 m2 heq
    rcases hda : digitVal h1 with _ | a <;> simp [hda] at hp
    rcases hdb1 : digitVal m1 with _ | b1 <;> simp [hdb1] at hp
    rcases hdb2 : digitVal m2 with _ | b2 <;> simp [hdb2] at hp
    by_cases hb : 10 * b1 + b2 ≤ 59 <;> simp [hb] at hp
    have := digitVal_le hda
    omega
  · rename_i h1 h2 m1 hne heq
    rcases hda1 : digitVal h1 with _ | a1 <;> simp [hda1] at hp
    rcases hda2 : digitVal h2 with _ | a2 <;> simp [hda2] at hp
    rcases hdb : digitVal m1 with _ | b <;> simp [hdb] at hp
    by_cases ha : 10 * a1 + a2 ≤ 23 <;> simp [ha] at hp
    have := digitVal_le hdb
    omega
  · rename_i lrest h1 h2 m1 m2 heq
    rcases hda1 : digitVal h1 with _ | a1 <;> simp [hda1] at hp
    rcases hda2 : digitVal h2 with _ | a2 <;> simp [hda2] at hp
    rcases hdb1 : digitVal m1 with _ | b1 <;> simp [hdb1] at hp
    rcases hdb2 : digitVal m2 with _ | b2 <;> simp [hdb2] at hp
    by_cases hc : 10 * a1 + a2 ≤ 23 ∧ 10 * b1 + b2 ≤ 59 <;> simp [hc] at hp
    omega
  · exact Option.noConfusion hp

theorem datesRange_ok (today : Int) (l : List Nat)
    (h : ∀ i ∈ l, 1 ≤ today + (i : Int) ∧ today + (i : Int) ≤ maxOrd) :
    datesRange today l = Except.ok (l.map (fun i : Nat => today + (i : Int))) := by
  induction l with
  | nil => rfl
  | cons a as ih =>
    have ha := h a (List.mem_cons_self a as)
    rw [datesRange, if_pos ha, ih (fun i hi => h i (List.mem_cons_of_mem a hi))]
    simp

theorem datesRange_err (today : Int) (l : List Nat)
    (hex : ∃ i ∈ l, ¬(1 ≤ today + (i : Int) ∧ today + (i : Int) ≤ maxOrd)) :
    datesRange today l = Except.error PyErr.overflowError := by
  induction l with
  | nil => obtain ⟨i, hi, _⟩ := hex; exact absurd hi (List.not_mem_nil i)
  | cons a as ih =>
    by_cases ha : 1 ≤ today + (a : Int) ∧ today + (a : Int) ≤ maxOrd
    · obtain ⟨i, hi, hni⟩ := hex
      rcases List.mem_cons.1 hi with rfl | hias
      · exact absurd ha hni
      · rw [datesRange, if_pos ha, ih ⟨i, hias, hni⟩]
    · rw [datesRange, if_neg ha]

theorem get_timestamps_range_ok {h mi : Nat} {tz days now : Int} {ords : List Int}
    (ho : datesRange ((now + tz) / 86400 + epochOrd) (List.range days.toNat) = Except.ok ords) :
    get_timestamps_range h mi tz days now = Except.ok (ords.map (fun o => mkTimestamp o h mi tz)) := by
  unfold get_timestamps_range
  simp only [ho]

theorem get_timestamps_range_err {h mi : Nat} {tz days now : Int} {e : PyErr}
    (he : datesRange ((now + tz) / 86400 + epochOrd) (List.range days.toNat) = Except.error e) :
    get_timestamps_range h mi tz days now = Except.error e := by
  unfold get_timestamps_range
  simp only [he]

theorem chain'_arith (step : Int) :
    ∀ (n : Nat) (f : Nat → Int), (∀ i, f (i + 1) = f i + step) →
      List.Chain' (fun a b => b = a + step) ((List.range n).map f) := by
  intro n
  induction n with
  | zero => intro f _; simp
  | succ m ih =>
    intro f hf
    rw [List.range_succ_eq_map, List.map_cons, List.map_map]
    refine List.chain'_cons'.2 ⟨?_, ih (f ∘ Nat.succ) (fun i => hf (i + 1))⟩
    intro y hy
    cases m with
    | zero => simp at hy
    | succ m2 =>
      rw [List.range_succ_eq_map, List.map_cons, List.head?_cons, Option.mem_def,
        Option.some.injEq] at hy
      subst hy
      exact hf 0

/-! Claim C3. -/

/-- C3 counterexample: the claim asserts that every 1-2 digit magnitude is
accepted, naming `UTC+25` as an example; in fact the regex matches `UTC+25`
but `datetime.timezone(timedelta(hours=25))` raises `ValueError`, so
`parse_timezone` fails rather than returning the +25-hour offset. -/
theorem parse_timezone_rejects_utc25 :
    parse_timezone "UTC+25" = Except.error PyErr.tzOffsetOutOfRange ∧
    parse_timezone "UTC+25" ≠ Except.ok 90000 := by decide

/-- C3 (amended): for every sign and every magnitude `h` with at most two
digits, `UTC±h` parses to the signed offset of `h` hours when `h ≤ 23`, and
fails with the `datetime.timezone` range `ValueError` when `24 ≤ h ≤ 99`;
there is no unbounded acceptance. -/
theorem parse_timezone_two_digit_magnitudes : ∀ h : Nat, h < 100 →
    (parse_timezone ("UTC+" ++ toString h) =
      if h ≤ 23 then Except.ok (3600 * (h : Int)) else Except.error PyErr.tzOffsetOutOfRange) ∧
    (parse_timezone ("UTC-" ++ toString h) =
      if h ≤ 23 then Except.ok (-(3600 * (h : Int))) else Except.error PyErr.tzOffsetOutOfRange) := by
  decide

/-- Witness for C3's amended theorem at the magnitudes 5 and 30. -/
theorem parse_timezone_two_digit_magnitudes_witness :
    (parse_timezone ("UTC+" ++ toString (5 : Nat)) =
      if (5 : Nat) ≤ 23 then Except.ok (3600 * ((5 : Nat) : Int)) else Except.error PyErr.tzOffsetOutOfRange) ∧
    (parse_timezone ("UTC-" ++ toString (30 : Nat)) =
      if (30 : Nat) ≤ 23 then Except.ok (-(3600 * ((30 : Nat) : Int))) else Except.error PyErr.tzOffsetOutOfRange) :=
  ⟨(parse_timezone_two_digit_magnitudes 5 (by decide)).1,
   (parse_timezone_two_digit_magnitudes 30 (by decide)).2⟩

/-! Claim C4. -/

/-- C4 counterexample: the claim maps every sign-plus-digits form to the
corresponding offset, but `UTC-24` (grammar-conformant sign and two digits)
fails with the `datetime.timezone` range `ValueError` instead of producing
the -24-hour offset. -/
theorem parse_timezone_rejects_utc_minus_24 :
    parse_timezone "UTC-24" = Except.error PyErr.tzOffsetOutOfRange ∧
    parse_timezone "UTC-24" ≠ Except.ok (-86400) := by decide

/-- C4 (amended): after stripping whitespace and upper-casing, a failed match
of `UTC([+-]?)(\d{1,2})?` always yields the InvalidFormat error; a successful
match with magnitude at least 24 yields the range `ValueError` instead of an
offset; and the documented mappings hold: bare `UTC` and bare signs give
offset 0, signed or unsigned digits up to 23 give the signed offset,
case-insensitively and ignoring surrounding whitespace. -/
theorem parse_timezone_grammar :
    (∀ s : String, tzMatch ((stripPy s.toList).map Char.toUpper) = none →
      parse_timezone s = Except.error (PyErr.invalidTzFormat s)) ∧
    (∀ (s : String) (neg : Bool) (h : Nat),
      tzMatch ((stripPy s.toList).map Char.toUpper) = some (neg, h) → 24 ≤ h →
      parse_timezone s = Except.error PyErr.tzOffsetOutOfRange) ∧
    parse_timezone "UTC" = Except.ok 0 ∧
    parse_timezone "UTC+" = Except.ok 0 ∧
    parse_timezone "UTC-" = Except.ok 0 ∧
    parse_timezone " utc-3 " = Except.ok (-10800) ∧
    parse_timezone "UTC+5" = Except.ok 18000 ∧
    parse_timezone "UTC7" = Except.ok 25200 ∧
    parse_timezone "UTC+05" = Except.ok 18000 ∧
    parse_timezone "PST" = Except.error (PyErr.invalidTzFormat "PST") ∧
    parse_timezone "GMT+3" = Except.error (PyErr.invalidTzFormat "GMT+3") ∧
    parse_timezone "UTC+3:30" = Except.error (PyErr.invalidTzFormat "UTC+3:30") ∧
    parse_timezone "UTC+100" = Except.error (PyErr.invalidTzFormat "UTC+100") := by
  refine ⟨?_, ?_, ?_⟩
  · intro s hs
    unfold parse_timezone
    rw [hs]
  · intro s neg h hs h24
    unfold parse_timezone
    rw [hs]
    simp [h24]
  · decide

/-- Witness for C4's amended theorem: the InvalidFormat branch at `BRT` and
the out-of-range branch at `UTC+99`. -/
theorem parse_timezone_grammar_witness :
    parse_timezone "BRT" = Except.error (PyErr.invalidTzFormat "BRT") ∧
    parse_timezone "UTC+99" = Except.error PyErr.tzOffsetOutOfRange :=
  ⟨parse_timezone_grammar.1 "BRT" (by decide),
   parse_timezone_grammar.2.1 "UTC+99" false 99 (by decide) (by decide)⟩

/-! Claim C5. -/

/-- C5: with an explicit date, `get_timestamps` returns exactly one instant;
it equals the UTC epoch seconds of the date-time pair minus the offset, and
its local reading under the offset splits into the date's ordinal day and the
requested seconds-of-day. -/
theorem get_timestamps_explicit_date (t d : String) (tz days now : Int) (h mi : Nat) (y mo dd : Int)
    (ht : parse_time t = some (h, mi)) (hd : parse_date d = some (y, mo, dd)) :
    get_timestamps t tz (some d) days now = Except.ok [mkTimestamp (ymd2ord y mo dd) h mi tz] ∧
    mkTimestamp (ymd2ord y mo dd) h mi tz =
      86400 * (ymd2ord y mo dd - epochOrd) + 3600 * (h : Int) + 60 * (mi : Int) - tz ∧
    (mkTimestamp (ymd2ord y mo dd) h mi tz + tz) / 86400 = ymd2ord y mo dd - epochOrd ∧
    (mkTimestamp (ymd2ord y mo dd) h mi tz + tz) % 86400 = 3600 * (h : Int) + 60 * (mi : Int) := by
  have hdne : (d == "") = false := by
    cases hde : d == "" with
    | true =>
      rw [show d = "" from eq_of_beq hde] at hd
      exact Option.noConfusion hd
    | false => rfl
  have hb := parse_time_bounds ht
  refine ⟨?_, by unfold mkTimestamp; ring, ?_, ?_⟩
  · unfold get_timestamps
    rw [ht]
    simp [hdne, hd]
  · unfold mkTimestamp epochOrd
    omega
  · unfold mkTimestamp epochOrd
    omega

/-- Witness for C5 at `09:00`, `2024-01-15`, offset +2 hours. -/
theorem get_timestamps_explicit_date_witness :
    get_timestamps "09:00" 7200 (some "2024-01-15") 3 0 =
      Except.ok [mkTimestamp (ymd2ord 2024 1 15) 9 0 7200] ∧
    mkTimestamp (ymd2ord 2024 1 15) 9 0 7200 =
      86400 * (ymd2ord 2024 1 15 - epochOrd) + 3600 * ((9 : Nat) : Int) + 60 * ((0 : Nat) : Int) - 7200 ∧
    (mkTimestamp (ymd2ord 2024 1 15) 9 0 7200 + 7200) / 86400 = ymd2ord 2024 1 15 - epochOrd ∧
    (mkTimestamp (ymd2ord 2024 1 15) 9 0 7200 + 7200) % 86400 = 3600 * ((9 : Nat) : Int) + 60 * ((0 : Nat) : Int) :=
  get_timestamps_explicit_date "09:00" "2024-01-15" 7200 3 0 9 0 2024 1 15 (by decide) (by decide)

/-! Claim C6. -/

/-- C6 counterexample: the claim quantifies over every integer `days`, but a
range that leaves the representable calendar (year 9999) makes
`today + timedelta(days=i)` raise `OverflowError`, so with the current
instant at epoch 0 (today = 1970-01-01, ordinal 719163) and
`days = 2932898`, `get_timestamps` raises instead of returning a list of
length `days`. -/
theorem get_timestamps_overflow :
    get_timestamps "10:00" 0 none 2932898 0 = Except.error PyErr.overflowError ∧
    (get_timestamps "10:00" 0 none 2932898 0).isOk = false := by
  have herr : datesRange (((0 : Int) + 0) / 86400 + epochOrd) (List.range (2932898 : Int).toNat) =
      Except.error PyErr.overflowError := by
    apply datesRange_err
    refine ⟨2932897, List.mem_range.2 (by decide), ?_⟩
    unfold epochOrd maxOrd
    intro hcon
    omega
  have step1 : get_timestamps "10:00" 0 none 2932898 0 = get_timestamps_range 10 0 0 2932898 0 := rfl
  have hmain : get_timestamps "10:00" 0 none 2932898 0 = Except.error PyErr.overflowError := by
    rw [step1, get_timestamps_range_err herr]
  exact ⟨hmain, by rw [hmain]; rfl⟩

/-- C6 (amended): without an explicit date the resolver yields
`max days 0` instants (empty for `days ≤ 0`, not auto-corrected), one per
consecutive calendar day starting from today as observed under the offset,
consecutive instants exactly 86400 seconds apart and strictly ascending —
provided every date of the range stays within the representable calendar
(ordinals `1..maxOrd`); beyond that the date arithmetic raises an uncaught
`OverflowError` instead. -/
theorem get_timestamps_date_range (t : String) (tz days now : Int) (h mi : Nat)
    (ht : parse_time t = some (h, mi))
    (hr : ∀ i : Nat, i < days.toNat →
      1 ≤ (now + tz) / 86400 + epochOrd + (i : Int) ∧ (now + tz) / 86400 + epochOrd + (i : Int) ≤ maxOrd) :
    get_timestamps t tz none days now = Except.ok (rangeTimestamps h mi tz days now) ∧
    (rangeTimestamps h mi tz days now).length = days.toNat ∧
    ((days.toNat : Nat) : Int) = max days 0 ∧
    List.Chain' (fun a b => b = a + 86400) (rangeTimestamps h mi tz days now) ∧
    List.Chain' (· < ·) (rangeTimestamps h mi tz days now) := by
  have hstep : ∀ i : Nat,
      mkTimestamp ((now + tz) / 86400 + epochOrd + ((i + 1 : Nat) : Int)) h mi tz =
        mkTimestamp ((now + tz) / 86400 + epochOrd + (i : Int)) h mi tz + 86400 := by
    intro i
    unfold mkTimestamp
    push_cast
    ring
  have hchain : List.Chain' (fun a b => b = a + 86400) (rangeTimestamps h mi tz days now) := by
    unfold rangeTimestamps
    exact chain'_arith 86400 days.toNat
      (fun i => mkTimestamp ((now + tz) / 86400 + epochOrd + (i : Int)) h mi tz) hstep
  refine ⟨?_, by unfold rangeTimestamps; rw [List.length_map, List.length_range], by omega, hchain, ?_⟩
  · have hok := datesRange_ok ((now + tz) / 86400 + epochOrd) (List.range days.toNat)
      (fun i hi => hr i (List.mem_range.1 hi))
    have step1 : get_timestamps t tz none days now = get_timestamps_range h mi tz days now := by
      unfold get_timestamps
      rw [ht]
    rw [step1, get_timestamps_range_ok hok]
    unfold rangeTimestamps
    rw [List.map_map]
    rfl
  · exact hchain.imp (fun a b hab => by omega)

/-- Witness for C6's amended theorem: `09:00`, UTC, 3 days from epoch 0. -/
theorem get_timestamps_date_range_witness :
    get_timestamps "09:00" 0 none 3 0 = Except.ok (rangeTimestamps 9 0 0 3 0) ∧
    (rangeTimestamps 9 0 0 3 0).length = (3 : Int).toNat ∧
    (((3 : Int).toNat : Nat) : Int) = max 3 0 ∧
    List.Chain' (fun a b => b = a + 86400) (rangeTimestamps 9 0 0 3 0) ∧
    List.Chain' (· < ·) (rangeTimestamps 9 0 0 3 0) :=
  get_timestamps_date_range "09:00" 0 3 0 9 0 (by decide)
    (fun i hi => by
      unfold epochOrd maxOrd
      constructor <;> omega)

/-! Supporting lemmas on the token generator. -/

theorem tdiv30_nonneg {t : Int} (h : -29 ≤ t) : ¬ Int.tdiv t 30 < 0 := by
  rcases le_or_lt 0 t with ht | ht
  · exact not_lt.2 (Int.tdiv_nonneg ht (by norm_num))
  · have h1 : Int.tdiv t 30 = -(Int.tdiv (-t) 30) := by
      rw [← Int.neg_tdiv, Int.neg_neg]
    have h2 : Int.tdiv (-t) 30 = 0 := Int.tdiv_eq_zero_of_lt (by omega) (by omega)
    rw [h1, h2]
    norm_num

theorem tdiv30_neg {t : Int} (h : t ≤ -30) : Int.tdiv t 30 < 0 := by
  have h1 : Int.tdiv t 30 = -(Int.tdiv (-t) 30) := by
    rw [← Int.neg_tdiv, Int.neg_neg]
  have h2 : 1 ≤ Int.tdiv (-t) 30 := by
    rw [Int.tdiv_eq_ediv (by omega) (by norm_num)]
    omega
  omega

theorem totp_at_ok {s : String} {k : List Nat} {localOff : Int} (hk : byte_secret s = Except.ok k)
    {t : Int} (ht : -29 ≤ t) (hf : fromtimestampOk localOff t = true) :
    totp_at s t localOff = Except.ok (tokenAt k t) := by
  unfold totp_at tokenAt
  rw [if_pos hf, if_neg (tdiv30_nonneg ht), hk]

theorem totp_at_err_year {s : String} {localOff t : Int} (hf : fromtimestampOk localOff t = false) :
    totp_at s t localOff = Except.error PyErr.yearOutOfRange := by
  unfold totp_at
  rw [if_neg (by simp [hf])]

theorem totp_at_err_secret {s : String} {e : PyErr} (hk : byte_secret s = Except.error e)
    {localOff t : Int} (ht : -29 ≤ t) (hf : fromtimestampOk localOff t = true) :
    totp_at s t localOff = Except.error e := by
  unfold totp_at
  rw [if_pos hf, if_neg (tdiv30_nonneg ht), hk]

theorem totp_at_err_neg {s : String} {localOff t : Int} (ht : t ≤ -30)
    (hf : fromtimestampOk localOff t = true) :
    totp_at s t localOff = Except.error PyErr.negativeInput := by
  unfold totp_at
  rw [if_pos hf, if_pos (tdiv30_neg ht)]

theorem totp_at_ok_inv {s : String} {localOff t : Int} {v : String}
    (h : totp_at s t localOff = Except.ok v) :
    fromtimestampOk localOff t = true ∧ -29 ≤ t ∧ ∃ k, byte_secret s = Except.ok k := by
  cases hf : fromtimestampOk localOff t with
  | false =>
    rw [totp_at_err_year hf] at h
    exact Except.noConfusion h
  | true =>
    by_cases h30 : -29 ≤ t
    · cases hbs : byte_secret s with
      | error e =>
        rw [totp_at_err_secret hbs h30 hf] at h
        exact Except.noConfusion h
      | ok k => exact ⟨rfl, h30, k, rfl⟩
    · rw [totp_at_err_neg (by omega) hf] at h
      exact Except.noConfusion h

theorem genTokensAux_ok {s : String} {k : List Nat} {localOff : Int} (hk : byte_secret s = Except.ok k) :
    ∀ (n : Nat) (ts : Int) (i : Nat), -29 ≤ ts + 30 * (i : Int) →
      (∀ j : Nat, j < n → fromtimestampOk localOff (ts + 30 * ((i + j : Nat) : Int)) = true) →
      genTokensAux s ts i localOff n =
        ((List.range n).map (fun j : Nat =>
          Line.tokenLine (ts + 30 * ((i + j : Nat) : Int)) (tokenAt k (ts + 30 * ((i + j : Nat) : Int)))), none) := by
  intro n
  induction n with
  | zero => intro ts i hi hr; rfl
  | succ m ih =>
    intro ts i hi hr
    have hf0 : fromtimestampOk localOff (ts + 30 * (i : Int)) = true := by
      have := hr 0 (by omega)
      simpa using this
    unfold genTokensAux
    rw [totp_at_ok hk hi hf0, ih ts (i + 1) (by push_cast; omega)
      (fun j hj => by
        have hnext := hr (j + 1) (by omega)
        have harr : (i + (j + 1) : Nat) = (i + 1 + j : Nat) := by omega
        rw [harr] at hnext
        exact hnext)]
    rw [List.range_succ_eq_map, List.map_cons, List.map_map]
    have hz : (i + 0 : Nat) = i := by omega
    have hsucc : ∀ j : Nat, (i + (j + 1) : Nat) = (i + 1 + j : Nat) := fun j => by omega
    have hmap : List.map ((fun j : Nat => Line.tokenLine (ts + 30 * ((i + j : Nat) : Int)) (tokenAt k (ts + 30 * ((i + j : Nat) : Int)))) ∘ Nat.succ) (List.range m)
        = List.map (fun j : Nat => Line.tokenLine (ts + 30 * ((i + 1 + j : Nat) : Int)) (tokenAt k (ts + 30 * ((i + 1 + j : Nat) : Int)))) (List.range m) := by
      refine List.map_congr_left (fun j hj => ?_)
      simp only [Function.comp_apply, Nat.succ_eq_add_one, hsucc j]
    rw [hz, hmap]

theorem generate_totps_of_valid {s : String} {k : List Nat} {localOff : Int}
    (hk : byte_secret s = Except.ok k) :
    ∀ (base : List Int), (∀ ts ∈ base, -29 ≤ ts) → ∀ count : Int,
      (∀ ts ∈ base, fromtimestampOk localOff ts = true) →
      (∀ ts ∈ base, ∀ i : Nat, i < count.toNat → fromtimestampOk localOff (ts + 30 * (i : Int)) = true) →
      generate_totps s base count localOff = (base.flatMap (tokenBlock k count), none) := by
  intro base
  induction base with
  | nil => intro _ count _ _; rfl
  | cons b rest ih =>
    intro hb count hbf hbr
    have hb0 : -29 ≤ b + 30 * ((0 : Nat) : Int) := by
      have := hb b (List.mem_cons_self b rest)
      push_cast
      omega
    unfold generate_totps
    rw [if_pos (hbf b (List.mem_cons_self b rest))]
    rw [genTokensAux_ok hk count.toNat b 0 hb0
      (fun j hj => by simpa using hbr b (List.mem_cons_self b rest) j hj),
      ih (fun ts hts => hb ts (List.mem_cons_of_mem b hts)) count
        (fun ts hts => hbf ts (List.mem_cons_of_mem b hts))
        (fun ts hts => hbr ts (List.mem_cons_of_mem b hts))]
    have hz : ∀ j : Nat, (0 + j : Nat) = j := fun j => by omega
    simp only [hz, List.flatMap_cons, tokenBlock, List.cons_append]

theorem genTokensAux_err_kind {s : String} {k : List Nat} {localOff : Int}
    (hk : byte_secret s = Except.ok k) :
    ∀ (n : Nat) (ts : Int) (i : Nat), -29 ≤ ts + 30 * (i : Int) →
      ∀ e : PyErr, (genTokensAux s ts i localOff n).2 = some e → e = PyErr.yearOutOfRange := by
  intro n
  induction n with
  | zero => intro ts i hi e h; exact Option.noConfusion h
  | succ m ih =>
    intro ts i hi e h
    unfold genTokensAux at h
    cases hf : fromtimestampOk localOff (ts + 30 * (i : Int)) with
    | false =>
      rw [totp_at_err_year hf] at h
      exact (Option.some.inj h).symm
    | true =>
      rw [totp_at_ok hk hi hf] at h
      cases hrec : genTokensAux s ts (i + 1) localOff m with
      | mk ls e2 =>
        rw [hrec] at h
        exact ih ts (i + 1) (by push_cast; omega) e (by rw [hrec]; exact h)

theorem genTokensAux_err_nil {s : String} {ts localOff : Int} :
    ∀ {n i : Nat} {e : PyErr}, (genTokensAux s ts i localOff n).2 = some e →
      e ≠ PyErr.yearOutOfRange → (genTokensAux s ts i localOff n).1 = [] := by
  intro n i e h hne
  cases n with
  | zero => exact Option.noConfusion h
  | succ m =>
    unfold genTokensAux at h ⊢
    cases htot : totp_at s (ts + 30 * (i : Int)) localOff with
    | error e0 => rfl
    | ok v =>
      rw [htot] at h
      obtain ⟨hf, hge, k, hk⟩ := totp_at_ok_inv htot
      cases hrec : genTokensAux s ts (i + 1) localOff m with
      | mk ls e2 =>
        rw [hrec] at h
        exact absurd
          (genTokensAux_err_kind hk m ts (i + 1) (by push_cast; omega) e (by rw [hrec]; exact h)) hne

theorem generate_totps_err_kind {s : String} {k : List Nat} {localOff : Int}
    (hk : byte_secret s = Except.ok k) :
    ∀ (base : List Int), (∀ x ∈ base, -29 ≤ x) → ∀ (count : Int) (e : PyErr),
      (generate_totps s base count localOff).2 = some e → e = PyErr.yearOutOfRange := by
  intro base
  induction base with
  | nil => intro _ count e h; exact Option.noConfusion h
  | cons b rest ih =>
    intro hall count e h
    unfold generate_totps at h
    by_cases hf : fromtimestampOk localOff b = true
    · rw [if_pos hf] at h
      cases hg : genTokensAux s b 0 localOff count.toNat with
      | mk ls ge =>
        rw [hg] at h
        cases ge with
        | some e0 =>
          have he0 : e0 = PyErr.yearOutOfRange :=
            genTokensAux_err_kind hk count.toNat b 0
              (by have := hall b (List.mem_cons_self b rest); push_cast; omega) e0 (by rw [hg])
          rw [← Option.some.inj h]
          exact he0
        | none =>
          cases hrest : generate_totps s rest count localOff with
          | mk ls2 e2 =>
            rw [hrest] at h
            exact ih (fun x hx => hall x (List.mem_cons_of_mem b hx)) count e (by rw [hrest]; exact h)
    · rw [if_neg hf] at h
      exact (Option.some.inj h).symm

set_option maxRecDepth 1000000 in
set_option maxHeartbeats 4000000 in
/-- C7 counterexample: the claim quantifies over every sequence of base
instants, but the real code has two reachable failure modes inside a block.
A base instant at or below -30 (any pre-1970 date, `--date 1950-01-01`)
makes `pyotp` raise `ValueError('input must be positive integer')` right
after the banner, emitting no token line; and near the end of the calendar
(`--date 9999-12-31 --time 23:59 --count 3` on a UTC machine, base instant
253402300740) the third target crosses 9999-12-31 23:59:59 machine-local, so
`datetime.fromtimestamp` raises and only 2 of the 3 token lines appear.
`AA` is a valid secret (it decodes to the single zero byte). -/
theorem generate_totps_boundary_errors :
    byte_secret "AA" = Except.ok [0] ∧
    generate_totps "AA" [-86400] 1 0 = ([Line.header (-86400)], some PyErr.negativeInput) ∧
    countTok (generate_totps "AA" [-86400] 1 0).1 = 0 ∧
    generate_totps "AA" [253402300740] 3 0 =
      ([Line.header 253402300740, Line.tokenLine 253402300740 "977663",
        Line.tokenLine 253402300770 "926770"], some PyErr.yearOutOfRange) ∧
    countTok (generate_totps "AA" [253402300740] 3 0).1 = 2 := by
  decide

/-- C7 (amended): for a valid secret, a positive count, and base instants
whose 30-second timecode is non-negative (instant at least -29) and whose
targets `ts + 30 i` for `i < count` all stay within the machine-local
printable range (years 1..9999), `generate_totps` emits for each base
instant, in sequence order, its banner followed by exactly `count` token
lines at `ts + 30 i` for `i = 0, ..., count-1` in ascending order; instants
below -29 abort with the pyotp negative-counter `ValueError`, and targets
past 9999-12-31 machine-local abort mid-block with the `fromtimestamp` range
`ValueError`. -/
theorem generate_totps_block_structure (s : String) (k : List Nat) (base : List Int)
    (count localOff : Int) (hk : byte_secret s = Except.ok k) (hc : 0 < count)
    (hb : ∀ ts ∈ base, -29 ≤ ts)
    (hf : ∀ ts ∈ base, ∀ i : Nat, i < count.toNat → fromtimestampOk localOff (ts + 30 * (i : Int)) = true) :
    generate_totps s base count localOff = (base.flatMap (tokenBlock k count), none) := by
  apply generate_totps_of_valid hk base hb count ?_ hf
  intro ts hts
  have h0 := hf ts hts 0 (by omega)
  simpa using h0

set_option maxRecDepth 100000 in
/-- Witness for C7's amended theorem: secret `AA`, one base instant, count 1,
a UTC machine. -/
theorem generate_totps_block_structure_witness :
    byte_secret "AA" = Except.ok [0] ∧ (0 : Int) < 1 ∧ (∀ ts ∈ [(59 : Int)], -29 ≤ ts) ∧
    (∀ ts ∈ [(59 : Int)], ∀ i : Nat, i < (1 : Int).toNat → fromtimestampOk 0 (ts + 30 * (i : Int)) = true) ∧
    generate_totps "AA" [59] 1 0 = ([(59 : Int)].flatMap (tokenBlock [0] 1), none) :=
  ⟨by decide, by decide, by decide, by decide,
   generate_totps_block_structure "AA" [0] [59] 1 0 (by decide) (by decide) (by decide) (by decide)⟩

/-! Claim C10. -/

theorem get_timestamps_now_indep (t : String) (tz : Int) (d : Option String) (days n1 n2 : Int)
    (hd : isTruthyStr d = true) :
    get_timestamps t tz d days n1 = get_timestamps t tz d days n2 := by
  cases d with
  | none => exact absurd hd (by simp [isTruthyStr])
  | some ds =>
    have hne : (ds == "") = false := by
      cases hde : ds == "" with
      | true => rw [isTruthyStr, hde] at hd; exact Bool.noConfusion hd
      | false => rfl
    unfold get_timestamps
    cases hpt : parse_time t with
    | none => rfl
    | some p =>
      cases p with
      | mk h mi => simp [hne]

/-- C8: token generation is deterministic — `generate_totps` is a pure
function of `(secret, baseInstants, count)` and the fixed machine clock, and
with an explicit date the whole pipeline output is independent of the
ambient current-time reading (the only ambient state the program consults
while resolving timestamps). -/
theorem token_generation_deterministic :
    (∀ (s : String) (base : List Int) (count localOff : Int),
      generate_totps s base count localOff = generate_totps s base count localOff) ∧
    (∀ (args : Args) (env : Option String) (n1 n2 localOff : Int), isTruthyStr args.date = true →
      totp_gen.main args env n1 localOff = totp_gen.main args env n2 localOff) := by
  refine ⟨fun _ _ _ _ => rfl, ?_⟩
  intro args env n1 n2 localOff hd
  unfold totp_gen.main
  cases hz : parse_timezone args.tz with
  | error e => rfl
  | ok tz =>
    dsimp only
    cases hs : get_secret args.secret env with
    | error e => rfl
    | ok s =>
      dsimp only
      rw [get_timestamps_now_indep args.time tz args.date args.days n1 n2 hd]

/-- Witness for C8: two runs with the same explicit-date arguments at
different ambient instants. -/
theorem token_generation_deterministic_witness :
    isTruthyStr (Args.mk "10:00" 3 (some "2024-06-01") 3 (some "x") "UTC").date = true ∧
    totp_gen.main (Args.mk "10:00" 3 (some "2024-06-01") 3 (some "x") "UTC") none 5 0 =
      totp_gen.main (Args.mk "10:00" 3 (some "2024-06-01") 3 (some "x") "UTC") none 99 0 :=
  ⟨by decide,
   token_generation_deterministic.2 (Args.mk "10:00" 3 (some "2024-06-01") 3 (some "x") "UTC")
     none 5 99 0 (by decide)⟩

/-! Supporting lemmas for the error-reporting claims. -/

theorem countErr_cons (x : Line) (l : List Line) (hx : isErrorLine x = false) :
    countErr (x :: l) = countErr l := by
  simp [countErr, List.filter_cons, hx]

theorem countTok_cons (x : Line) (l : List Line) (hx : isTokenLine x = false) :
    countTok (x :: l) = countTok l := by
  simp [countTok, List.filter_cons, hx]

theorem countErr_append (l1 l2 : List Line) : countErr (l1 ++ l2) = countErr l1 + countErr l2 := by
  simp [countErr, List.filter_append]

theorem countTok_append (l1 l2 : List Line) : countTok (l1 ++ l2) = countTok l1 + countTok l2 := by
  simp [countTok, List.filter_append]

theorem countErr_genAux {s : String} {ts localOff : Int} :
    ∀ (n i : Nat), countErr (genTokensAux s ts i localOff n).1 = 0 := by
  intro n
  induction n with
  | zero => intro i; rfl
  | succ m ih =>
    intro i
    unfold genTokensAux
    cases htot : totp_at s (ts + 30 * (i : Int)) localOff with
    | error e0 => rfl
    | ok v =>
      cases hr : genTokensAux s ts (i + 1) localOff m with
      | mk ls e =>
        show countErr (Line.tokenLine (ts + 30 * (i : Int)) v :: ls) = 0
        rw [countErr_cons (Line.tokenLine (ts + 30 * (i : Int)) v) ls rfl]
        have h0 := ih (i + 1)
        rw [hr] at h0
        exact h0

theorem countErr_gen {s : String} {localOff : Int} : ∀ (base : List Int) (count : Int),
    countErr (generate_totps s base count localOff).1 = 0 := by
  intro base
  induction base with
  | nil => intro count; rfl
  | cons b rest ih =>
    intro count
    unfold generate_totps
    by_cases hf : fromtimestampOk localOff b = true
    · rw [if_pos hf]
      cases hg : genTokensAux s b 0 localOff count.toNat with
      | mk ls ge =>
        have h1 : countErr ls = 0 := by
          have h0 : countErr (genTokensAux s b 0 localOff count.toNat).1 = 0 := countErr_genAux count.toNat 0
          rw [hg] at h0
          exact h0
        cases ge with
        | some e =>
          show countErr (Line.header b :: ls) = 0
          simp only [countErr, List.filter_cons, isErrorLine, Bool.false_eq_true, if_false] at h1 ⊢
          exact h1
        | none =>
          cases hrest : generate_totps s rest count localOff with
          | mk ls2 e2 =>
            have h2 : countErr ls2 = 0 := by
              have h0 := ih count
              rw [hrest] at h0
              exact h0
            show countErr (Line.header b :: ls ++ ls2) = 0
            simp only [countErr, List.filter_cons, List.filter_append, List.length_append,
              isErrorLine, Bool.false_eq_true, if_false] at h1 h2 ⊢
            omega
    · rw [if_neg hf]
      rfl

theorem countErr_zero_not_mem {ls : List Line} (h : countErr ls = 0) (e : PyErr) :
    Line.errorLine e ∉ ls := by
  intro hmem
  have hmf : Line.errorLine e ∈ ls.filter isErrorLine := List.mem_filter.2 ⟨hmem, rfl⟩
  rw [List.length_eq_zero.1 h] at hmf
  exact List.not_mem_nil _ hmf

theorem gen_err_no_tokens {s : String} {localOff : Int} : ∀ (base : List Int) (count : Int) (e : PyErr),
    base.Pairwise (· ≤ ·) → (generate_totps s base count localOff).2 = some e →
    e ≠ PyErr.yearOutOfRange → countTok (generate_totps s base count localOff).1 = 0 := by
  intro base
  induction base with
  | nil => intro count e _ h2 _; exact Option.noConfusion h2
  | cons b rest ih =>
    intro count e hp h2 hne
    obtain ⟨hble, hprest⟩ := List.pairwise_cons.1 hp
    unfold generate_totps at h2 ⊢
    by_cases hf : fromtimestampOk localOff b = true
    · rw [if_pos hf] at h2 ⊢
      cases hg : genTokensAux s b 0 localOff count.toNat with
      | mk ls ge =>
        rw [hg] at h2
        cases ge with
        | some e0 =>
          have hee : e0 = e := Option.some.inj h2
          subst hee
          have hls : ls = [] := by
            have h0 : (genTokensAux s b 0 localOff count.toNat).1 = [] :=
              genTokensAux_err_nil (by rw [hg]) hne
            rw [hg] at h0
            exact h0
          subst hls
          rfl
        | none =>
          cases hrest : generate_totps s rest count localOff with
          | mk ls2 e2 =>
            rw [hrest] at h2
            have h2r : e2 = some e := h2
            show countTok (Line.header b :: ls ++ ls2) = 0
            cases hn : count.toNat with
            | zero =>
              have hls : ls = [] := by
                have h0 : genTokensAux s b 0 localOff count.toNat = ([], none) := by rw [hn]; rfl
                rw [hg] at h0
                exact congrArg Prod.fst h0
              subst hls
              have htl : countTok (generate_totps s rest count localOff).1 = 0 := by
                apply ih count e hprest ?_ hne
                rw [hrest, h2r]
              rw [hrest] at htl
              simp only [countTok, List.filter_cons, List.nil_append, isTokenLine,
                Bool.false_eq_true, if_false] at htl ⊢
              exact htl
            | succ m =>
              exfalso
              have hgm : genTokensAux s b 0 localOff (m + 1) = (ls, none) := by rw [← hn, hg]
              unfold genTokensAux at hgm
              cases htot : totp_at s (b + 30 * ((0 : Nat) : Int)) localOff with
              | error e3 =>
                rw [htot] at hgm
                exact Option.noConfusion (congrArg Prod.snd hgm)
              | ok v =>
                obtain ⟨hf0, hge, k, hk⟩ := totp_at_ok_inv htot
                have hb29 : -29 ≤ b := by push_cast at hge; omega
                have hall : ∀ x ∈ rest, -29 ≤ x := fun x hx => le_trans hb29 (hble x hx)
                exact hne (generate_totps_err_kind hk rest hall count e (by rw [hrest]; exact h2r))
    · rw [if_neg hf] at h2 ⊢
      rfl

theorem datesRange_ok_inv (today : Int) : ∀ {li : List Nat} {r : List Int},
    datesRange today li = Except.ok r → r = li.map (fun i : Nat => today + (i : Int)) := by
  intro li
  induction li with
  | nil =>
    intro r h
    unfold datesRange at h
    cases h
    rfl
  | cons a as ih =>
    intro r h
    unfold datesRange at h
    split at h
    · cases hrec : datesRange today as with
      | error e => rw [hrec] at h; exact Except.noConfusion h
      | ok rest =>
        rw [hrec] at h
        cases h
        rw [List.map_cons, ih hrec]
    · exact Except.noConfusion h

theorem mkTimestamp_mono {o1 o2 : Int} {h mi : Nat} {tz : Int} (ho : o1 ≤ o2) :
    mkTimestamp o1 h mi tz ≤ mkTimestamp o2 h mi tz := by
  unfold mkTimestamp
  omega

theorem get_timestamps_range_sorted {h mi : Nat} {tz days now : Int} {l : List Int}
    (hok : get_timestamps_range h mi tz days now = Except.ok l) : l.Pairwise (· ≤ ·) := by
  cases hdr : datesRange ((now + tz) / 86400 + epochOrd) (List.range days.toNat) with
  | error e =>
    rw [get_timestamps_range_err hdr] at hok
    exact Except.noConfusion hok
  | ok ords =>
    rw [get_timestamps_range_ok hdr] at hok
    cases hok
    have hords := datesRange_ok_inv _ hdr
    subst hords
    rw [List.map_map]
    refine (List.pairwise_map).2 ?_
    refine (List.pairwise_lt_range days.toNat).imp ?_
    intro a b hab
    exact mkTimestamp_mono (by dsimp only; omega)

theorem get_timestamps_sorted {t : String} {tz : Int} {d : Option String} {days now : Int}
    {l : List Int} (h : get_timestamps t tz d days now = Except.ok l) : l.Pairwise (· ≤ ·) := by
  unfold get_timestamps at h
  cases hpt : parse_time t with
  | none => rw [hpt] at h; exact Except.noConfusion h
  | some p =>
    rw [hpt] at h
    obtain ⟨hh, mm⟩ := p
    dsimp only at h
    cases d with
    | none => exact get_timestamps_range_sorted h
    | some ds =>
      dsimp only at h
      by_cases hds : (ds == "") = true
      · rw [if_pos hds] at h
        exact get_timestamps_range_sorted h
      · rw [if_neg hds] at h
        cases hpd : parse_date ds with
        | none => rw [hpd] at h; exact Except.noConfusion h
        | some ymd =>
          rw [hpd] at h
          obtain ⟨y, mo, dd⟩ := ymd
          dsimp only at h
          cases h
          exact List.pairwise_singleton _ _

/-! Claim C9. -/

set_option maxRecDepth 1000000 in
set_option maxHeartbeats 4000000 in
/-- C9 counterexample: the claim says a validation failure generates no
tokens, but `--time 23:59 --date 9999-12-31 --tz UTC --count 3` with the
valid secret `AA` on a UTC machine prints the banner and two token lines
before the third target crosses 9999-12-31 23:59:59 and
`datetime.fromtimestamp` raises the caught `year 10000 is out of range`
`ValueError` — token lines precede the single error message. -/
theorem main_tokens_precede_year_range_error :
    totp_gen.main (Args.mk "23:59" 3 (some "9999-12-31") 3 (some "AA") "UTC") none 0 0 =
      ([Line.header 253402300740, Line.tokenLine 253402300740 "977663",
        Line.tokenLine 253402300770 "926770", Line.errorLine PyErr.yearOutOfRange], none) ∧
    countTok (totp_gen.main (Args.mk "23:59" 3 (some "9999-12-31") 3 (some "AA") "UTC") none 0 0).1 = 2 ∧
    countErr (totp_gen.main (Args.mk "23:59" 3 (some "9999-12-31") 3 (some "AA") "UTC") none 0 0).1 = 1 := by
  decide

/-- C9 (amended): in every run at most one error line is printed, and
whenever an error line is printed at all the run completes normally (no
uncaught exception, hence exit code 0) with exactly one error message on
standard output; moreover the failure generates no token lines unless it is
the machine-local `fromtimestamp` year-range `ValueError`, which can strike
mid-generation after some token lines have been printed. -/
theorem main_single_error_report (args : Args) (env : Option String) (now localOff : Int) :
    countErr (totp_gen.main args env now localOff).1 ≤ 1 ∧
    (∀ e, Line.errorLine e ∈ (totp_gen.main args env now localOff).1 →
      (totp_gen.main args env now localOff).2 = none ∧
      countErr (totp_gen.main args env now localOff).1 = 1 ∧
      (e ≠ PyErr.yearOutOfRange → countTok (totp_gen.main args env now localOff).1 = 0)) := by
  unfold totp_gen.main
  cases hz : parse_timezone args.tz with
  | error e0 =>
    dsimp only
    refine ⟨by simp [countErr, isErrorLine], fun e hmem => ⟨rfl, ?_, fun _ => ?_⟩⟩
    · simp [countErr, isErrorLine]
    · simp [countTok, isTokenLine]
  | ok tz =>
    dsimp only
    cases hs : get_secret args.secret env with
    | error e0 =>
      dsimp only
      refine ⟨by simp [countErr, isErrorLine], fun e hmem => ⟨rfl, ?_, fun _ => ?_⟩⟩
      · simp [countErr, isErrorLine]
      · simp [countTok, isTokenLine]
    | ok sec =>
      dsimp only
      cases hts : get_timestamps args.time tz args.date args.days now with
      | error e0 =>
        dsimp only
        by_cases hve : e0.isValueError = true
        · rw [if_pos hve]
          refine ⟨by simp [countErr, isErrorLine], fun e hmem => ⟨rfl, ?_, fun _ => ?_⟩⟩
          · simp [countErr, isErrorLine]
          · simp [countTok, isTokenLine]
        · rw [if_neg hve]
          refine ⟨by simp [countErr], fun e hmem => absurd hmem (List.not_mem_nil _)⟩
      | ok tss =>
        dsimp only
        cases hg : generate_totps sec tss args.count localOff with
        | mk gls ge =>
          have hgl1 : countErr gls = 0 := by
            have h0 : countErr (generate_totps sec tss args.count localOff).1 = 0 :=
              countErr_gen tss args.count
            rw [hg] at h0
            exact h0
          cases ge with
          | none =>
            dsimp only
            exact ⟨by omega, fun e hmem => absurd hmem (countErr_zero_not_mem hgl1 e)⟩
          | some e0 =>
            dsimp only
            by_cases hve : e0.isValueError = true
            · rw [if_pos hve]
              refine ⟨?_, fun e hmem => ?_⟩
              · rw [countErr_append, hgl1]
                simp [countErr, isErrorLine]
              · have hee : e = e0 := by
                  rcases List.mem_append.1 hmem with hin | hin
                  · exact absurd hin (countErr_zero_not_mem hgl1 e)
                  · exact Line.errorLine.inj (List.mem_singleton.1 hin)
                subst hee
                refine ⟨rfl, ?_, fun hne => ?_⟩
                · rw [countErr_append, hgl1]
                  simp [countErr, isErrorLine]
                · have htok : countTok gls = 0 := by
                    have h0 : countTok (generate_totps sec tss args.count localOff).1 = 0 :=
                      gen_err_no_tokens tss args.count e (get_timestamps_sorted hts) (by rw [hg]) hne
                    rw [hg] at h0
                    exact h0
                  rw [countTok_append, htok]
                  simp [countTok, isTokenLine]
            · rw [if_neg hve]
              dsimp only
              exact ⟨by omega, fun e hmem => absurd hmem (countErr_zero_not_mem hgl1 e)⟩

/-- Witness for C9's amended theorem at a malformed timezone argument (an
error that is not the year-range one, so zero token lines). -/
theorem main_single_error_report_witness :
    (totp_gen.main (Args.mk "10:00" 3 none 3 (some "x") "PST") none 0 0).2 = none ∧
    countErr (totp_gen.main (Args.mk "10:00" 3 none 3 (some "x") "PST") none 0 0).1 = 1 ∧
    countTok (totp_gen.main (Args.mk "10:00" 3 none 3 (some "x") "PST") none 0 0).1 = 0 :=
  have h := (main_single_error_report (Args.mk "10:00" 3 none 3 (some "x") "PST") none 0 0).2
    (PyErr.invalidTzFormat "PST") (by decide)
  ⟨h.1, h.2.1, h.2.2 (by decide)⟩

theorem b32decode_err_kind {cs : List Char} {e : PyErr} (h : b32decode cs = Except.error e) :
    e.isValueError = true := by
  unfold b32decode at h
  split at h
  · cases h; rfl
  · dsimp only at h
    split at h
    · cases h; rfl
    · split at h
      · split at h
        · exact Except.noConfusion h
        · exact Except.noConfusion h
      · cases h; rfl

theorem byte_secret_err_kind {s : String} {e : PyErr} (h : byte_secret s = Except.error e) :
    e.isValueError = true := by
  unfold byte_secret at h
  exact b32decode_err_kind h

theorem generate_totps_bad_secret {s : String} {e : PyErr} (hk : byte_secret s = Except.error e)
    {b : Int} (hb : -29 ≤ b) {localOff : Int} (hf : fromtimestampOk localOff b = true)
    (bs : List Int) {count : Int} (hc : 1 ≤ count) :
    generate_totps s (b :: bs) count localOff = ([Line.header b], some e) := by
  obtain ⟨m, hm⟩ : ∃ m, count.toNat = m + 1 := ⟨count.toNat - 1, by omega⟩
  have hb0 : -29 ≤ b + 30 * ((0 : Nat) : Int) := by push_cast; omega
  have hf0 : fromtimestampOk localOff (b + 30 * ((0 : Nat) : Int)) = true := by
    simpa using hf
  have haux : genTokensAux s b 0 localOff count.toNat = ([], some e) := by
    rw [hm]
    unfold genTokensAux
    rw [totp_at_err_secret hk hb0 hf0]
  unfold generate_totps
  rw [if_pos hf, haux]

/-! Claim C1. -/

set_option maxRecDepth 100000 in
/-- C1 counterexample: with a syntactically invalid secret (`1` is outside
the Base32 alphabet), the generator prints the first block's banner line
before the first `totp.at` call raises, so output does precede the single
error line — the run prints the banner and then `Error: ...`. -/
theorem main_invalid_secret_header_precedes_error :
    totp_gen.main (Args.mk "10:00" 1 (some "2024-06-01") 3 (some "1") "UTC") none 0 0 =
      ([Line.header 1717236000, Line.errorLine (PyErr.invalidSecret "Non-base32 digit found")], none) ∧
    isErrorLine
      ((totp_gen.main (Args.mk "10:00" 1 (some "2024-06-01") 3 (some "1") "UTC") none 0 0).1.getD 0
        (Line.header 0)) = false := by
  decide

/-- C1 (amended): a failure in any stage before token generation (timezone,
secret presence, timestamp resolution with a `ValueError`) prints exactly the
single error line and nothing else; an InvalidSecret failure during token
generation (with at least one resolved instant, a positive count, a
non-negative first timecode, and a first instant inside the machine-local
`fromtimestamp` year range) prints exactly the first block's banner line
followed by the error line — no token line, but the banner does precede the
error. -/
theorem main_failure_output (args : Args) (env : Option String) (now localOff : Int) :
    (∀ e, parse_timezone args.tz = Except.error e →
      totp_gen.main args env now localOff = ([Line.errorLine e], none)) ∧
    (∀ tz e, parse_timezone args.tz = Except.ok tz → get_secret args.secret env = Except.error e →
      totp_gen.main args env now localOff = ([Line.errorLine e], none)) ∧
    (∀ tz s e, parse_timezone args.tz = Except.ok tz → get_secret args.secret env = Except.ok s →
      get_timestamps args.time tz args.date args.days now = Except.error e → e.isValueError = true →
      totp_gen.main args env now localOff = ([Line.errorLine e], none)) ∧
    (∀ tz s b bs e, parse_timezone args.tz = Except.ok tz → get_secret args.secret env = Except.ok s →
      get_timestamps args.time tz args.date args.days now = Except.ok (b :: bs) →
      byte_secret s = Except.error e → 1 ≤ args.count → -29 ≤ b →
      fromtimestampOk localOff b = true →
      totp_gen.main args env now localOff = ([Line.header b, Line.errorLine e], none)) := by
  refine ⟨?_, ?_, ?_, ?_⟩
  · intro e hz
    unfold totp_gen.main
    rw [hz]
  · intro tz e hz hs
    unfold totp_gen.main
    rw [hz]
    dsimp only
    rw [hs]
  · intro tz s e hz hs hts hve
    unfold totp_gen.main
    rw [hz]
    dsimp only
    rw [hs]
    dsimp only
    rw [hts]
    dsimp only
    rw [if_pos hve]
  · intro tz s b bs e hz hs hts hk hc hb hf
    unfold totp_gen.main
    rw [hz]
    dsimp only
    rw [hs]
    dsimp only
    rw [hts]
    dsimp only
    rw [generate_totps_bad_secret hk hb hf bs hc]
    dsimp only
    rw [if_pos (byte_secret_err_kind hk)]
    rfl

/-- Witness for C1's amended theorem: the InvalidSecret case on 2024-06-02. -/
theorem main_failure_output_witness :
    totp_gen.main (Args.mk "10:00" 1 (some "2024-06-02") 3 (some "1") "UTC") none 0 0 =
      ([Line.header 1717322400, Line.errorLine (PyErr.invalidSecret "Non-base32 digit found")], none) :=
  (main_failure_output (Args.mk "10:00" 1 (some "2024-06-02") 3 (some "1") "UTC") none 0 0).2.2.2
    0 "1" 1717322400 [] (PyErr.invalidSecret "Non-base32 digit found")
    (by decide) (by decide) (by decide) (by decide) (by decide) (by decide) (by decide)

/-! Claim C2. -/

set_option maxRecDepth 1000000 in
set_option maxHeartbeats 4000000 in
/-- C2 counterexample: the end-to-end run
`--time 10:00 --date 2024-06-01 --tz UTC --count 2` with the RFC 6238 secret,
executed on a machine whose local clock is UTC-3 (the script's own default
audience), prints the token timestamps as 07:00:00 local time, not the
requested 10:00:00 — `datetime.fromtimestamp` uses the machine timezone, not
`--tz`, so the printed timestamps do depend on the machine's timezone. -/
theorem main_rendering_uses_machine_offset :
    renderOutput (-10800)
      (totp_gen.main (Args.mk "10:00" 2 (some "2024-06-01") 3
        (some "GEZDGNBVGY3TQOJQGEZDGNBVGY3TQOJQ") "UTC") none 0 (-10800)).1 =
      ["\nTokens starting at 2024-06-01 07:00:00:",
       "  2024-06-01 07:00:00 -> 779912",
       "  2024-06-01 07:00:30 -> 775332"] ∧
    (renderOutput (-10800)
      (totp_gen.main (Args.mk "10:00" 2 (some "2024-06-01") 3
        (some "GEZDGNBVGY3TQOJQGEZDGNBVGY3TQOJQ") "UTC") none 0 (-10800)).1).getD 1 "" ≠
      "  2024-06-01 10:00:00 -> 779912" := by
  decide

set_option maxRecDepth 1000000 in
set_option maxHeartbeats 4000000 in
/-- C2 (amended): on any machine whose local clock offset is at most a day in
magnitude, the run prints one block with exactly 2 token lines whose target
instants are 2024-06-01 10:00:00 UTC and 30 seconds later, but the
human-readable timestamps are rendered under the machine's local offset, not
the requested timezone; they read 10:00:00 exactly when the machine's local
offset is UTC. -/
theorem main_explicit_run_rendering (localOff now : Int)
    (hlo : -86400 ≤ localOff ∧ localOff ≤ 86400) :
    (totp_gen.main (Args.mk "10:00" 2 (some "2024-06-01") 3
        (some "GEZDGNBVGY3TQOJQGEZDGNBVGY3TQOJQ") "UTC") none now localOff).1 =
      [Line.header 1717236000, Line.tokenLine 1717236000 "779912",
       Line.tokenLine 1717236030 "775332"] ∧
    countTok (totp_gen.main (Args.mk "10:00" 2 (some "2024-06-01") 3
        (some "GEZDGNBVGY3TQOJQGEZDGNBVGY3TQOJQ") "UTC") none now localOff).1 = 2 ∧
    renderOutput localOff (totp_gen.main (Args.mk "10:00" 2 (some "2024-06-01") 3
        (some "GEZDGNBVGY3TQOJQGEZDGNBVGY3TQOJQ") "UTC") none now localOff).1 =
      ["\nTokens starting at " ++ fmtInstant localOff 1717236000 ++ ":",
       "  " ++ fmtInstant localOff 1717236000 ++ " -> " ++ "779912",
       "  " ++ fmtInstant localOff 1717236030 ++ " -> " ++ "775332"] ∧
    (localOff = 0 →
      renderOutput localOff (totp_gen.main (Args.mk "10:00" 2 (some "2024-06-01") 3
          (some "GEZDGNBVGY3TQOJQGEZDGNBVGY3TQOJQ") "UTC") none now localOff).1 =
        ["\nTokens starting at 2024-06-01 10:00:00:",
         "  2024-06-01 10:00:00 -> 779912",
         "  2024-06-01 10:00:30 -> 775332"]) := by
  have hk : byte_secret "GEZDGNBVGY3TQOJQGEZDGNBVGY3TQOJQ" =
      Except.ok [49, 50, 51, 52, 53, 54, 55, 56, 57, 48, 49, 50, 51, 52, 53, 54, 55, 56, 57, 48] := by
    decide
  have hgen : generate_totps "GEZDGNBVGY3TQOJQGEZDGNBVGY3TQOJQ" [1717236000] 2 localOff =
      (([1717236000] : List Int).flatMap
        (tokenBlock [49, 50, 51, 52, 53, 54, 55, 56, 57, 48, 49, 50, 51, 52, 53, 54, 55, 56, 57, 48] 2), none) :=
    generate_totps_of_valid hk [1717236000]
      (fun ts hts => by rw [List.mem_singleton.1 hts]; norm_num) 2
      (fun ts hts => by
        rw [List.mem_singleton.1 hts]
        simp only [fromtimestampOk, decide_eq_true_eq]
        omega)
      (fun ts hts i hi => by
        rw [List.mem_singleton.1 hts]
        have hi2 : i < 2 := hi
        simp only [fromtimestampOk, decide_eq_true_eq]
        omega)
  have hflat : ([1717236000] : List Int).flatMap
      (tokenBlock [49, 50, 51, 52, 53, 54, 55, 56, 57, 48, 49, 50, 51, 52, 53, 54, 55, 56, 57, 48] 2) =
      [Line.header 1717236000, Line.tokenLine 1717236000 "779912",
       Line.tokenLine 1717236030 "775332"] := by
    decide
  have hpre : totp_gen.main (Args.mk "10:00" 2 (some "2024-06-01") 3
      (some "GEZDGNBVGY3TQOJQGEZDGNBVGY3TQOJQ") "UTC") none now localOff =
      (match generate_totps "GEZDGNBVGY3TQOJQGEZDGNBVGY3TQOJQ" [1717236000] 2 localOff with
       | (lines, some e) => if e.isValueError then (lines ++ [Line.errorLine e], none) else (lines, some e)
       | (lines, none) => (lines, none)) := rfl
  have h1 : totp_gen.main (Args.mk "10:00" 2 (some "2024-06-01") 3
      (some "GEZDGNBVGY3TQOJQGEZDGNBVGY3TQOJQ") "UTC") none now localOff =
      ([Line.header 1717236000, Line.tokenLine 1717236000 "779912",
        Line.tokenLine 1717236030 "775332"], none) := by
    rw [hpre, hgen]
    dsimp only
    rw [hflat]
  refine ⟨by rw [h1], ?_, ?_, ?_⟩
  · rw [h1]
    rfl
  · rw [h1]
    rfl
  · intro h0
    subst h0
    rw [h1]
    decide

set_option maxRecDepth 1000000 in
set_option maxHeartbeats 4000000 in
/-- Witness for C2's amended theorem on a UTC machine. -/
theorem main_explicit_run_rendering_witness :
    renderOutput 0 (totp_gen.main (Args.mk "10:00" 2 (some "2024-06-01") 3
        (some "GEZDGNBVGY3TQOJQGEZDGNBVGY3TQOJQ") "UTC") none 7 0).1 =
      ["\nTokens starting at 2024-06-01 10:00:00:",
       "  2024-06-01 10:00:00 -> 779912",
       "  2024-06-01 10:00:30 -> 775332"] :=
  (main_explicit_run_rendering 0 7 (by decide)).2.2.2 rfl
